import Mathlib

/-!
Shallow embedding of `src/cmus.py` (the `cmus.py` wrapper around the C* Music
Player).  Pure parsing code is translated into Lean functions; the stateful
monitor loop becomes explicit state passing; Python exceptions become an
explicit error type (`PyErr`) threaded through `Except` / result pairs.

Modelling conventions, stated once:
  * Python `str` is `String` (a list of `Char`); `\d` in the regexes, Python
    whitespace stripping and `str.lower` are modelled over ASCII characters
    (the status text produced by `cmus-remote` is ASCII).
  * Python `float` values are modelled as exact rationals (`Rat`); the
    `float(...)` / `int(...)` constructors, which are only reached on strings
    that already matched a decimal-digit regex, are modelled on decimal
    literals with optional sign and exponent (underscored literals and
    `inf` / `nan` spellings are out of the modelled fragment).
  * Python dicts are ordered association lists: assignment updates the first
    matching key in place, or appends a fresh key at the end, exactly as a
    Python dict preserves insertion order.
-/

namespace CmusPy

/-- A typed value as produced by `Cmus._typecast`: Python `str`, `int`,
`float` (exact rational model) or `bool`. -/
inductive PyVal where
  | str (s : String)
  | int (n : Int)
  | float (q : Rat)
  | bool (b : Bool)
deriving DecidableEq, Repr

/-- The Python exceptions the embedded code can raise. `cmusNotRunning` is
the library's own `CmusNotRunning`; the others are the builtin exceptions
reachable in the source (`IndexError` from `words[1]`, `TypeError` from
item-assignment on a non-dict, `KeyError` from `Cmus.hook`). -/
inductive PyErr where
  | cmusNotRunning
  | indexError
  | typeError
  | keyError
deriving DecidableEq, Repr

/-! Section: Python dict model -/

/-- Lookup in a Python dict modelled as an ordered association list. -/
def dictGet? {α : Type} : List (String × α) → String → Option α
  | [], _ => none
  | (k', v') :: rest, k => if k' = k then some v' else dictGet? rest k

/-- Assignment `d[k] = v` on a Python dict: overwrite the first matching key in place,
else append at the end (insertion order semantics). -/
def dictSet {α : Type} : List (String × α) → String → α → List (String × α)
  | [], k, v => [(k, v)]
  | (k', v') :: rest, k, v =>
    if k' = k then (k, v) :: rest else (k', v') :: dictSet rest k v

/-- Membership test `k in d.keys()`. -/
def dictHasKey {α : Type} (d : List (String × α)) (k : String) : Bool :=
  d.any (fun p => p.1 == k)

/-! Section: String helpers mirroring the Python primitives used by the source -/

/-- Auxiliary scanner for `str.split(sep)` with a one-character separator. -/
def splitOnCharAux (sep : Char) : List Char → List Char → List String
  | [], acc => [String.mk acc.reverse]
  | c :: rest, acc =>
    if c = sep then String.mk acc.reverse :: splitOnCharAux sep rest []
    else splitOnCharAux sep rest (c :: acc)

/-- Python `s.split(sep)` for a single-character separator: keeps empty
pieces, and `"".split(" ") == [""]`. -/
def pySplitChar (sep : Char) (s : String) : List String :=
  splitOnCharAux sep s.data []

/-- Tokenisation `line.split(" ")` as used by `get_state_info`. -/
def pySplitSpace (s : String) : List String :=
  pySplitChar ' ' s

/-- Python `" ".join(words)`. -/
def joinSpace : List String → String
  | [] => ""
  | [x] => x
  | x :: rest => x ++ " " ++ joinSpace rest

/-- Auxiliary scanner for `str.splitlines`. -/
def pySplitlinesAux : List Char → List Char → List String
  | [], [] => []
  | [], acc => [String.mk acc.reverse]
  | '\r' :: '\n' :: rest, acc => String.mk acc.reverse :: pySplitlinesAux rest []
  | '\r' :: rest, acc => String.mk acc.reverse :: pySplitlinesAux rest []
  | '\n' :: rest, acc => String.mk acc.reverse :: pySplitlinesAux rest []
  | c :: rest, acc => pySplitlinesAux rest (c :: acc)

/-- Python `s.splitlines()` restricted to the `\n`, `\r`, `\r\n` line
boundaries (the ones `cmus-remote` output can contain): `"" → []`, and a
trailing newline produces no trailing empty line. -/
def pySplitlines (s : String) : List String :=
  pySplitlinesAux s.data []

/-- ASCII model of `str.lower` on one character. -/
def charLower (c : Char) : Char :=
  if 'A' ≤ c && c ≤ 'Z' then Char.ofNat (c.toNat + 32) else c

/-- ASCII model of `value.lower()`. -/
def pyLower (s : String) : String :=
  String.mk (s.data.map charLower)

/-! Section: The `types` rule table and `Cmus._typecast` -/

/-- Test that `re.match("\d*\.\d+", value)` succeeds: an optional leading digit run,
then a dot, then at least one digit.  (`re.match` anchors at the start only;
greedy `\d*` needs no backtracking model because the character after any
shorter digit run is a digit, never the required dot.) -/
def matchFloatPat (s : String) : Bool :=
  match s.data.dropWhile Char.isDigit with
  | c :: d :: _ => c == '.' && d.isDigit
  | _ => false

/-- Test that `re.match("((T|t)rue|(F|f)alse)", value)` succeeds: the string starts
with one of the four literals. -/
def matchBoolPat (s : String) : Bool :=
  List.isPrefixOf "True".data s.data || List.isPrefixOf "true".data s.data ||
  List.isPrefixOf "False".data s.data || List.isPrefixOf "false".data s.data

/-- Test that `re.match("\d+", value)` succeeds: the string starts with a digit. -/
def matchIntPat (s : String) : Bool :=
  match s.data with
  | c :: _ => c.isDigit
  | [] => false

/-- Numeric value of a run of decimal digits. -/
def digitsVal (l : List Char) : Nat :=
  l.foldl (fun a c => a * 10 + (c.toNat - 48)) 0

/-- Python `int(...)` / `float(...)` strip surrounding whitespace first. -/
def stripWsBoth (l : List Char) : List Char :=
  ((l.dropWhile Char.isWhitespace).reverse.dropWhile Char.isWhitespace).reverse

/-- Optional leading sign of a numeric literal. -/
def parseSign : List Char → Int × List Char
  | '+' :: r => (1, r)
  | '-' :: r => (-1, r)
  | l => (1, l)

/-- The exact rational value `mant * 10 ^ e / 10 ^ frlen` of a decimal
literal with integer-and-fraction mantissa `mant`, `frlen` fraction digits
and exponent `e`, assembled with a single normalising `mkRat`. -/
def decToRat (mant : Int) (frlen : Nat) (e : Int) : Rat :=
  match e with
  | Int.ofNat n => mkRat (mant * Int.ofNat (10 ^ n)) (10 ^ frlen)
  | Int.negSucc n => mkRat mant (10 ^ frlen * 10 ^ (n + 1))

/-- The exponent digits of a float literal (after `e`/`E`). -/
def parseExpDigits (l : List Char) : Option Int :=
  let (es, r) := parseSign l
  let ds := r.takeWhile Char.isDigit
  if ds.isEmpty then none
  else if (r.dropWhile Char.isDigit).isEmpty then some (es * Int.ofNat (digitsVal ds))
  else none

/-- The optional exponent suffix of a float literal. -/
def parseExpPart : List Char → Option Int
  | [] => some 0
  | 'e' :: r => parseExpDigits r
  | 'E' :: r => parseExpDigits r
  | _ => none

/-- Model of Python's `float(s)` on decimal literals: returns the exact
rational value, or `none` when `float` raises `ValueError`. -/
def pyFloat? (s : String) : Option Rat :=
  let (sg, l) := parseSign (stripWsBoth s.data)
  let ip := l.takeWhile Char.isDigit
  let r1 := l.dropWhile Char.isDigit
  match r1 with
  | '.' :: r2 =>
    let fr := r2.takeWhile Char.isDigit
    let r3 := r2.dropWhile Char.isDigit
    if ip.isEmpty && fr.isEmpty then none
    else
      match parseExpPart r3 with
      | some e =>
        some (decToRat (sg * Int.ofNat (digitsVal ip * 10 ^ fr.length + digitsVal fr))
                       fr.length e)
      | none => none
  | _ =>
    if ip.isEmpty then none
    else
      match parseExpPart r1 with
      | some e => some (decToRat (sg * Int.ofNat (digitsVal ip)) 0 e)
      | none => none

/-- Model of Python's `int(s)`: `none` when `int` raises `ValueError`. -/
def pyInt? (s : String) : Option Int :=
  let (sg, l) := parseSign (stripWsBoth s.data)
  let ds := l.takeWhile Char.isDigit
  if ds.isEmpty then none
  else if (l.dropWhile Char.isDigit).isEmpty then some (sg * Int.ofNat (digitsVal ds))
  else none

/-- Model of `Cmus._typecast`: try the `types` rules in the source's insertion order
(float pattern, boolean literal, bare integer).  On the first matching
pattern, run its constructor; a constructor `ValueError` executes `break`,
so the original string is returned without trying later rules.  The boolean
constructor `lambda value: True if value.lower() == "true" else False`
cannot fail. -/
def typecast (value : String) : PyVal :=
  if matchFloatPat value then
    match pyFloat? value with
    | some q => PyVal.float q
    | none => PyVal.str value
  else if matchBoolPat value then
    PyVal.bool (pyLower value == "true")
  else if matchIntPat value then
    match pyInt? value with
    | some n => PyVal.int n
    | none => PyVal.str value
  else PyVal.str value

/-! Section: `Cmus.get_state_info` -/

/-- One section of the state dict: a Python dict from field name to value. -/
abbrev StateSec : Type := List (String × PyVal)

/-- A top-level entry of `default_states`: initially the three section
dicts, but the (buggy) scoped-line assignment can also install plain values
at the top level. -/
inductive TopVal where
  | sec (d : List (String × PyVal))
  | val (v : PyVal)
deriving DecidableEq, Repr

/-- The whole `default_states` dict. -/
abbrev StateDict : Type := List (String × TopVal)

instance {ε α : Type} [DecidableEq ε] [DecidableEq α] : DecidableEq (Except ε α)
  | Except.ok a, Except.ok b =>
    if h : a = b then isTrue (by rw [h])
    else isFalse (fun hh => h (by cases hh; rfl))
  | Except.ok _, Except.error _ => isFalse (fun hh => by cases hh)
  | Except.error _, Except.ok _ => isFalse (fun hh => by cases hh)
  | Except.error e, Except.error e' =>
    if h : e = e' then isTrue (by rw [h])
    else isFalse (fun hh => h (by cases hh; rfl))

/-- The `values` section of the `default_states` literal in the source. -/
def defaultValues : List (String × PyVal) :=
  [("status", PyVal.str ""), ("file", PyVal.str ""),
   ("duration", PyVal.int 0), ("position", PyVal.int 0)]

/-- The `tag` section of the `default_states` literal in the source. -/
def defaultTag : List (String × PyVal) :=
  [("artist", PyVal.str ""), ("album", PyVal.str ""),
   ("title", PyVal.str ""), ("tracknumber", PyVal.int 0)]

/-- The `set` section of the `default_states` literal in the source. -/
def defaultSet : List (String × PyVal) :=
  [("aaa_mode", PyVal.str ""), ("continue", PyVal.bool false),
   ("play_library", PyVal.bool false), ("play_sorted", PyVal.bool false),
   ("replaygain", PyVal.bool false), ("replaygain_limit", PyVal.bool false),
   ("replaygain_preamp", PyVal.float 0), ("repeat", PyVal.bool false),
   ("repeat_current", PyVal.bool false), ("shuffle", PyVal.bool false),
   ("softvol", PyVal.bool false), ("vol_left", PyVal.int 0),
   ("vol_right", PyVal.int 0)]

/-- The fresh `default_states` dict built at the start of every
`get_state_info` call. -/
def defaultStates : StateDict :=
  [("values", TopVal.sec defaultValues), ("tag", TopVal.sec defaultTag),
   ("set", TopVal.sec defaultSet)]

/-- One iteration of the `for line in output.splitlines()` loop.  Note the
two faithful quirks of the source: in the scoped branch the assignment
target is `default_states[field_name]` (the TOP level, the local `section`
variable is computed but never used), and `words[1]` on a one-token line
raises `IndexError`.  In the unscoped branch,
`default_states["values"][field_name] = ...` raises `TypeError` when a
previous scoped line has overwritten the `"values"` entry with a plain
value. -/
def processLine (st : StateDict) (line : String) : Except PyErr StateDict :=
  let words := pySplitSpace line
  let section_name := words.headD ""
  if dictHasKey st section_name then
    match words with
    | _ :: field_name :: rest =>
      Except.ok (dictSet st field_name (TopVal.val (typecast (joinSpace rest))))
    | _ => Except.error PyErr.indexError
  else
    match dictGet? st "values" with
    | some (TopVal.sec d) =>
      Except.ok (dictSet st "values"
        (TopVal.sec (dictSet d section_name (typecast (joinSpace words.tail)))))
    | _ => Except.error PyErr.typeError

/-- The parsing loop of `get_state_info`, with Python exception
propagation. -/
def runLines : StateDict → List String → Except PyErr StateDict
  | st, [] => Except.ok st
  | st, l :: ls =>
    match processLine st l with
    | Except.ok st' => runLines st' ls
    | Except.error e => Except.error e

/-- Model of `Cmus.get_state_info`.  Here `running` is the result of the
`self._is_running()` liveness probe (an excluded OS collaborator) and
`text` is the decoded `cmus-remote -C status` output (an excluded external
command collaborator): the liveness check is performed first, and when it
fails the text is never fetched nor parsed — the result is
`CmusNotRunning` for every `text`. -/
def get_state_info (running : Bool) (text : String) : Except PyErr StateDict :=
  if running = false then Except.error PyErr.cmusNotRunning
  else runLines defaultStates (pySplitlines text)

/-! Section: `Cmus.get_filename` and the `pathlib.Path(...).stem` model -/

/-- Model of `PurePosixPath(s).name`: the final path component — split on `/`, drop
empty and `.` components, take the last (or `""`). -/
def pyPathName (s : String) : String :=
  ((pySplitChar '/' s).filter (fun c => c != "" && c != ".")).getLastD ""

/-- Index of the rightmost `.` in a character list, if any. -/
def lastDotIdx (l : List Char) : Option Nat :=
  match l.reverse.findIdx? (fun c => c == '.') with
  | some j => some (l.length - 1 - j)
  | none => none

/-- Model of `PurePosixPath(s).stem`: the final component with its suffix removed;
a suffix exists only when the rightmost dot is neither the first nor the
last character of the name (CPython's `0 < i < len(name) - 1` rule). -/
def pyStem (s : String) : String :=
  let name := pyPathName s
  match lastDotIdx name.data with
  | some i =>
    if 0 < i ∧ i < name.data.length - 1 then String.mk (name.data.take i) else name
  | none => name

/-- Model of `Cmus.get_filename`: stem of `get_state_info()["values"]["file"]`,
with the source's (redundant) length guard.  Indexing a non-dict `values`
entry or passing a non-string to `Path` raises `TypeError`. -/
def get_filename (running : Bool) (text : String) : Except PyErr String :=
  match get_state_info running text with
  | Except.error e => Except.error e
  | Except.ok st =>
    match dictGet? st "values" with
    | some (TopVal.sec d) =>
      match dictGet? d "file" with
      | some (PyVal.str f) =>
        let filename := pyStem f
        if filename.length > 0 then Except.ok filename else Except.ok ""
      | some _ => Except.error PyErr.typeError
      | none => Except.error PyErr.keyError
    | some (TopVal.val _) => Except.error PyErr.typeError
    | none => Except.error PyErr.keyError

/-! Section: The event registry, `Cmus.hook` and the `Cmus.monitor` loop -/

/-- A registered observer, abstracted to an identifier plus whether its
invocation raises. -/
structure Callback where
  id : Nat
  raises : Bool
deriving DecidableEq, Repr

/-- The `self._events` dict.  Its key set is fixed at construction to
exactly `on_started` and `on_ended` and never changes, so it is modelled as
a structure with one ordered callback list per event. -/
structure Events where
  on_started : List Callback
  on_ended : List Callback
deriving DecidableEq, Repr

/-- The registry `self._events` as initialised in `Cmus.__init__`. -/
def initEvents : Events := ⟨[], []⟩

/-- Model of `Cmus.hook`: the guard `self._events.get(event) is not None` holds exactly for
the two fixed keys; a known event appends the callback at the end of that
event's list, an unknown event raises `KeyError` and leaves the registry
untouched. -/
def hook (ev : Events) (event : String) (cb : Callback) :
    Except PyErr Unit × Events :=
  if event = "on_started" then
    (Except.ok (), { ev with on_started := ev.on_started ++ [cb] })
  else if event = "on_ended" then
    (Except.ok (), { ev with on_ended := ev.on_ended ++ [cb] })
  else
    (Except.error PyErr.keyError, ev)

/-- Dispatch `for event in self._events[kind]: event(time.time())` — invoke the
callbacks in list order; a raising callback propagates its exception out of
the `for` loop, so the callbacks after it are never invoked.  Returns the
ids invoked (in order) and the id of the raising callback, if any. -/
def fireEach : List Callback → List Nat × Option Nat
  | [] => ([], none)
  | cb :: rest =>
    if cb.raises then ([cb.id], some cb.id)
    else
      let r := fireEach rest
      (cb.id :: r.1, r.2)

/-- The kind of a dispatched lifecycle event. -/
inductive EventKind where
  | started
  | ended
deriving DecidableEq, Repr

/-- One iteration of the `while True` body of `Cmus.monitor`, observing one
liveness sample, when no callback raises: returns the new stored
`self._alive` and the dispatches performed.  The second `if` tests the
`self._alive` already updated by the first, exactly as in the source. -/
def monitorStep (alive : Bool) (sample : Bool) : Bool × List EventKind :=
  let r1 :=
    if sample = true && alive = false then (true, [EventKind.started])
    else (alive, ([] : List EventKind))
  let r2 :=
    if sample = false && r1.1 = true then (false, [EventKind.ended])
    else (r1.1, ([] : List EventKind))
  (r2.1, r1.2 ++ r2.2)

/-- The monitor loop run over a finite list of liveness samples (no
callback raises). -/
def monitorRun : Bool → List Bool → Bool × List EventKind
  | alive, [] => (alive, [])
  | alive, s :: rest =>
    let r := monitorStep alive s
    let r' := monitorRun r.1 rest
    (r'.1, r.2 ++ r'.2)

/-- One iteration of the `while True` body with real callback dispatch:
`self._alive` is assigned before the `for` loop fires the callbacks, and a
callback's exception propagates out of the iteration (carried as the
raiser's id). -/
def monitorStepE (ev : Events) (alive : Bool) (sample : Bool) :
    Bool × Option Nat :=
  if sample = true && alive = false then
    match (fireEach ev.on_started).2 with
    | some i => (true, some i)
    | none => (true, none)
  else if sample = false && alive = true then
    match (fireEach ev.on_ended).2 with
    | some i => (false, some i)
    | none => (false, none)
  else (alive, none)

/-- The monitor loop with callback dispatch over a finite sample list: an
uncaught callback exception terminates the loop at that sample. -/
def monitorRunE (ev : Events) : Bool → List Bool → Bool × Option Nat
  | alive, [] => (alive, none)
  | alive, s :: rest =>
    match monitorStepE ev alive s with
    | (a1, none) => monitorRunE ev a1 rest
    | (a1, some i) => (a1, some i)

/-! Section: Auxiliary definitions used by the statements -/

/-- A well-formedness condition on one status line under which the parsing
loop cannot raise: the line has at least two space-separated tokens and its
second token is not the literal `values`. -/
def lineOK (line : String) : Bool :=
  decide (2 ≤ (pySplitSpace line).length) && ((pySplitSpace line)[1]? != some "values")

/-- The top-level `values` entry of the state dict still holds a section
dict (it starts as one, and only the buggy scoped-line assignment can
replace it with a plain value). -/
def valuesOK (st : StateDict) : Prop :=
  ∃ d, dictGet? st "values" = some (TopVal.sec d)

/-- Whether `get_state_info` returns a snapshot (rather than raising). -/
def parseSucceeds (running : Bool) (text : String) : Bool :=
  match get_state_info running text with
  | Except.ok _ => true
  | Except.error _ => false

/-! Section: Helper lemmas -/

theorem isPrefixOf_append (p t : List Char) : List.isPrefixOf p (p ++ t) = true := by
  induction p with
  | nil => cases t <;> rfl
  | cons c cs ih => simp [List.isPrefixOf, ih]

theorem dictGet?_dictSet_same {α : Type} (d : List (String × α)) (k : String) (v : α) :
    dictGet? (dictSet d k v) k = some v := by
  induction d with
  | nil => simp [dictSet, dictGet?]
  | cons p rest ih =>
    obtain ⟨k', v'⟩ := p
    by_cases h : k' = k
    · simp [dictSet, dictGet?, h]
    · simp [dictSet, dictGet?, h, ih]

theorem dictGet?_dictSet_ne {α : Type} (d : List (String × α)) (k k' : String) (v : α)
    (h : k' ≠ k) : dictGet? (dictSet d k v) k' = dictGet? d k' := by
  induction d with
  | nil => simp [dictSet, dictGet?, Ne.symm h]
  | cons p rest ih =>
    obtain ⟨k₀, v₀⟩ := p
    by_cases h₀ : k₀ = k
    · subst h₀
      simp [dictSet, dictGet?, Ne.symm h]
    · simp [dictSet, dictGet?, h₀, ih]

/-- Lemma: `processLine` raises only `IndexError` or `TypeError`. -/
theorem processLine_cases (st : StateDict) (l : String) :
    processLine st l = Except.error PyErr.indexError ∨
    processLine st l = Except.error PyErr.typeError ∨
    ∃ st', processLine st l = Except.ok st' := by
  simp only [processLine]
  split
  · split
    · right; right; exact ⟨_, rfl⟩
    · left; rfl
  · split
    · right; right; exact ⟨_, rfl⟩
    · right; left; rfl

/-- The parsing loop raises only `IndexError` or `TypeError`. -/
theorem runLines_cases (ls : List String) (st : StateDict) :
    runLines st ls = Except.error PyErr.indexError ∨
    runLines st ls = Except.error PyErr.typeError ∨
    ∃ st', runLines st ls = Except.ok st' := by
  induction ls generalizing st with
  | nil => right; right; exact ⟨st, rfl⟩
  | cons l ls ih =>
    rcases processLine_cases st l with h | h | ⟨st', h⟩
    · left; simp [runLines, h]
    · right; left; simp [runLines, h]
    · simpa [runLines, h] using ih st'

/-- A line satisfying `lineOK` is processed without raising and preserves
`valuesOK`. -/
theorem processLine_ok_of_lineOK (st : StateDict) (l : String)
    (hv : valuesOK st) (hl : lineOK l = true) :
    ∃ st', processLine st l = Except.ok st' ∧ valuesOK st' := by
  obtain ⟨d, hd⟩ := hv
  have h2 : 2 ≤ (pySplitSpace l).length := by
    have := hl
    simp [lineOK] at this
    exact this.1
  have hne : (pySplitSpace l)[1]? ≠ some "values" := by
    have := hl
    simp [lineOK] at this
    exact this.2
  match hs : pySplitSpace l with
  | [] => rw [hs] at h2; simp at h2
  | [w0] => rw [hs] at h2; simp at h2
  | w0 :: w1 :: rest =>
    have hw1 : w1 ≠ "values" := by
      rw [hs] at hne
      simpa using hne
    by_cases hb : dictHasKey st w0
    · refine ⟨dictSet st w1 (TopVal.val (typecast (joinSpace rest))), ?_, ?_⟩
      · simp [processLine, hs, hb]
      · exact ⟨d, by rw [dictGet?_dictSet_ne st w1 "values" _ (Ne.symm hw1)]; exact hd⟩
    · refine ⟨dictSet st "values"
        (TopVal.sec (dictSet d w0 (typecast (joinSpace (w1 :: rest))))), ?_, ?_⟩
      · simp [processLine, hs, hb, hd]
      · exact ⟨_, dictGet?_dictSet_same _ _ _⟩

/-- The parsing loop succeeds on any list of `lineOK` lines. -/
theorem runLines_ok_of_lineOK (ls : List String) (st : StateDict)
    (hv : valuesOK st) (hall : ∀ l ∈ ls, lineOK l = true) :
    ∃ st', runLines st ls = Except.ok st' := by
  induction ls generalizing st with
  | nil => exact ⟨st, rfl⟩
  | cons l ls ih =>
    obtain ⟨st', h, hv'⟩ :=
      processLine_ok_of_lineOK st l hv (hall l (List.mem_cons_self l ls))
    obtain ⟨st'', h''⟩ := ih st' hv' (fun x hx => hall x (List.mem_cons_of_mem l hx))
    exact ⟨st'', by simp [runLines, h, h'']⟩

/-- Order of invocation in one dispatch is registration order: the invoked
ids form an initial segment of the registered ids. -/
theorem fireEach_order (cbs : List Callback) :
    (fireEach cbs).1 = (cbs.map Callback.id).take (fireEach cbs).1.length := by
  induction cbs with
  | nil => rfl
  | cons cb rest ih =>
    by_cases h : cb.raises
    · simp [fireEach, h]
    · simp [fireEach, h]
      exact ih

/-- A string of length zero is the empty string. -/
theorem string_eq_empty_of_not_pos (s : String) (h : ¬ s.length > 0) : s = "" := by
  cases s with
  | mk l =>
    cases l with
    | nil => rfl
    | cons c t => exact absurd (by simp [String.length]) h

/-- Helper for claim C10: on a string whose first character is neither a
digit nor a dot, and which matches the boolean-literal pattern, `_typecast`
takes the boolean rule. -/
theorem typecast_of_boolpm (s : String) (c : Char) (l : List Char)
    (hs : s.data = c :: l) (hc : c.isDigit = false) (hcd : c ≠ '.')
    (hb : matchBoolPat s = true) :
    typecast s = PyVal.bool (pyLower s == "true") := by
  have hcb : (c == '.') = false := beq_eq_false_iff_ne.mpr hcd
  have hf : matchFloatPat s = false := by
    cases l with
    | nil => simp [matchFloatPat, hs, List.dropWhile_cons, hc]
    | cons d rest => simp [matchFloatPat, hs, List.dropWhile_cons, hc, hcb]
  have hi : matchIntPat s = false := by
    simp [matchIntPat, hs, hc]
  simp [typecast, hf, hb, hi]

/-! Section: The claims -/

/-- C1: the claim says a scoped line `tag artist Radiohead` writes
`Radiohead` into the `tag` section under `artist`.  The source instead
executes `default_states[field_name] = ...` (the local `section` variable
is computed but never used), so the value lands at the TOP level of the
dict under the key `artist`, and the `tag` section keeps its default
`artist = ""`.  This theorem evaluates the code at the failing input and
exhibits both facts. -/
theorem C1_tag_line_eval :
    get_state_info true "tag artist Radiohead" =
      Except.ok (defaultStates ++ [("artist", TopVal.val (PyVal.str "Radiohead"))]) ∧
    dictGet? (defaultStates ++ [("artist", TopVal.val (PyVal.str "Radiohead"))]) "tag" =
      some (TopVal.sec defaultTag) ∧
    dictGet? defaultTag "artist" = some (PyVal.str "") := by decide

/-- C2: dispatches of the monitor loop are edge-triggered.  In one poll
cycle, `on_started` fires exactly when the sample is alive and the stored
state was dead, `on_ended` exactly when the sample is dead and the stored
state was alive; a sample equal to the stored state fires nothing; at most
one event kind fires per cycle; and the sample sequence
`[false, false, true, true, false]` from a dead initial state produces
exactly one `started` and one `ended` dispatch, in that order. -/
theorem C2_monitor_edge_triggering :
    (∀ alive sample : Bool, (monitorStep alive sample).2 =
      (if sample && !alive then [EventKind.started] else []) ++
      (if !sample && alive then [EventKind.ended] else [])) ∧
    (∀ alive : Bool, (monitorStep alive alive).2 = []) ∧
    (∀ alive sample : Bool, (monitorStep alive sample).2.length ≤ 1) ∧
    (monitorRun false [false, false, true, true, false]).2 =
      [EventKind.started, EventKind.ended] :=
  ⟨by decide, by decide, by decide, by decide⟩

/-- C3 (counterexample): parsing is not total — the single-line input
`tag` has a reserved first token and only one token, so `words[1]` raises
`IndexError` instead of the line being skipped. -/
theorem C3_counterexample_one_token_line :
    get_state_info true "tag" = Except.error PyErr.indexError := by decide

/-- C3 (amended): `get_state_info` returns a snapshot for every input text
all of whose lines have at least two space-separated tokens and no line's
second token is the literal `values`; a one-token line whose token is a
known key raises `IndexError` (and a scoped line writing the key `values`
can make a later top-level line raise `TypeError`), rather than being
skipped. -/
theorem C3_parse_total_amended (text : String)
    (h : ∀ l ∈ pySplitlines text, lineOK l = true) :
    ∃ st, get_state_info true text = Except.ok st := by
  have he : get_state_info true text = runLines defaultStates (pySplitlines text) := rfl
  rw [he]
  exact runLines_ok_of_lineOK _ _ ⟨defaultValues, rfl⟩ h

/-- Witness for C3's amended theorem at a concrete two-line status text. -/
theorem C3_parse_total_amended_witness :
    parseSucceeds true "tag artist Radiohead\nduration 245" = true := by
  obtain ⟨st, hst⟩ :=
    C3_parse_total_amended "tag artist Radiohead\nduration 245" (by decide)
  simp [parseSucceeds, hst]

/-- C4: `_typecast` tries float pattern, then boolean literal, then bare
integer, returning the first successfully constructed value and the
original text when no rule succeeds: the six instances of the claim.
(`mkRat 157 50` is the exact rational 3.14; `3.0` becomes the float value
`3`, produced by the `PyVal.float` constructor, which is distinct from the
integer value `PyVal.int 3`.) -/
theorem C4_typecast_priority :
    typecast "true" = PyVal.bool true ∧
    typecast "False" = PyVal.bool false ∧
    typecast "3.14" = PyVal.float (mkRat 157 50) ∧
    typecast "42" = PyVal.int 42 ∧
    typecast "abc" = PyVal.str "abc" ∧
    typecast "3.0" = PyVal.float (mkRat 3 1) := by decide

/-- C5: the claim says every section/field pair absent from the text keeps
its template default.  Because the scoped-line assignment writes to the top
level, the input `set tag gone` (in which no `tag`-section field occurs)
replaces the entire `tag` section with the plain string `gone`: the
defaults of `tag.artist`, `tag.album`, … are not preserved — the `tag`
entry is no longer a section at all.  This theorem evaluates the code at
the failing input. -/
theorem C5_section_overwrite_eval :
    get_state_info true "set tag gone" =
      Except.ok [("values", TopVal.sec defaultValues),
                 ("tag", TopVal.val (PyVal.str "gone")),
                 ("set", TopVal.sec defaultSet)] ∧
    dictGet? defaultTag "artist" = some (PyVal.str "") := by decide

/-- C6: when the liveness probe reports not running, `get_state_info`
raises `CmusNotRunning` uniformly in the status text (the text is never
consulted); when it reports running, the result is never that error — it
is a snapshot, or one of the parser's own `IndexError` / `TypeError`. -/
theorem C6_not_running_gate :
    (∀ text : String, get_state_info false text = Except.error PyErr.cmusNotRunning) ∧
    (∀ text : String,
      get_state_info true text = Except.error PyErr.indexError ∨
      get_state_info true text = Except.error PyErr.typeError ∨
      ∃ st, get_state_info true text = Except.ok st) := by
  refine ⟨fun _ => rfl, fun text => ?_⟩
  have he : get_state_info true text = runLines defaultStates (pySplitlines text) := rfl
  rw [he]
  exact runLines_cases _ _

/-- C7: `hook` on a name outside `{on_started, on_ended}` raises `KeyError`
(the spec's `UnknownEventKind`) at registration time and leaves the
registry unchanged; on a name inside the set it appends the callback at
the end of that event's list; and a dispatch invokes callbacks in exactly
registration order (the invoked ids are an initial segment of the
registered ids). -/
theorem C7_hook_registration :
    (∀ (ev : Events) (name : String) (cb : Callback),
      name ≠ "on_started" → name ≠ "on_ended" →
      hook ev name cb = (Except.error PyErr.keyError, ev)) ∧
    (∀ (ev : Events) (cb : Callback),
      hook ev "on_started" cb =
        (Except.ok (), { ev with on_started := ev.on_started ++ [cb] })) ∧
    (∀ (ev : Events) (cb : Callback),
      hook ev "on_ended" cb =
        (Except.ok (), { ev with on_ended := ev.on_ended ++ [cb] })) ∧
    (∀ cbs : List Callback,
      (fireEach cbs).1 = (cbs.map Callback.id).take (fireEach cbs).1.length) := by
  refine ⟨fun ev name cb h1 h2 => ?_, fun ev cb => ?_, fun ev cb => ?_, fireEach_order⟩
  · simp [hook, h1, h2]
  · simp [hook]
  · simp [hook]

/-- Witness for C7 at the concrete unknown event name `on_paused`. -/
theorem C7_hook_registration_witness :
    hook initEvents "on_paused" ⟨7, false⟩ = (Except.error PyErr.keyError, initEvents) :=
  C7_hook_registration.1 initEvents "on_paused" ⟨7, false⟩ (by decide) (by decide)

/-- C8 (counterexample): with two callbacks registered for `on_started`,
the first of which raises, the dispatch invokes only the first (id 2 is
never invoked, refuting "every remaining callback is still invoked"), and
the monitor loop terminates with the uncaught exception at the first
sample instead of continuing (the second sample's `on_ended` edge is never
processed). -/
theorem C8_counterexample_raising_callback :
    fireEach [⟨1, true⟩, ⟨2, false⟩] = ([1], some 1) ∧
    (fireEach [⟨1, true⟩, ⟨2, false⟩]).1.contains 2 = false ∧
    monitorRunE ⟨[⟨1, true⟩, ⟨2, false⟩], []⟩ false [true, false] = (true, some 1) := by
  decide

/-- C8 (amended): dispatch is not isolated per callback — when a callback
raises, the callbacks before it have been invoked in order, the callbacks
after it are NOT invoked, and the exception propagates out of the poll
loop, terminating it. -/
theorem C8_exception_propagates_amended :
    (∀ (good : List Callback) (bad : Callback) (rest : List Callback),
      (∀ c ∈ good, c.raises = false) → bad.raises = true →
      fireEach (good ++ bad :: rest) = (good.map Callback.id ++ [bad.id], some bad.id)) ∧
    monitorRunE ⟨[⟨1, true⟩, ⟨2, false⟩], []⟩ false [true, false] = (true, some 1) := by
  refine ⟨fun good bad rest hg hb => ?_, by decide⟩
  induction good with
  | nil => simp [fireEach, hb]
  | cons c cs ih =>
    have hc : c.raises = false := hg c (List.mem_cons_self c cs)
    have ih' := ih (fun x hx => hg x (List.mem_cons_of_mem c hx))
    simp [fireEach, hc, ih']

/-- Witness for C8's amended theorem at a concrete three-callback list. -/
theorem C8_exception_propagates_amended_witness :
    fireEach [⟨0, false⟩, ⟨1, true⟩, ⟨2, false⟩] = ([0, 1], some 1) :=
  C8_exception_propagates_amended.1 [⟨0, false⟩] ⟨1, true⟩ [⟨2, false⟩] (by decide) rfl

/-- C9: `get_filename` returns the stem (base name without directory and
extension) of the snapshot's `values.file`; in particular
`/music/artist/01 - Song.flac` yields `01 - Song`, and an absent / empty
file field yields the empty string. -/
theorem C9_get_filename :
    (∀ (text : String) (st : StateDict) (d : StateSec) (f : String),
      get_state_info true text = Except.ok st →
      dictGet? st "values" = some (TopVal.sec d) →
      dictGet? d "file" = some (PyVal.str f) →
      get_filename true text = Except.ok (pyStem f)) ∧
    get_filename true "file /music/artist/01 - Song.flac" = Except.ok "01 - Song" ∧
    pyStem "/music/artist/01 - Song.flac" = "01 - Song" ∧
    get_filename true "" = Except.ok "" := by
  refine ⟨fun text st d f h1 h2 h3 => ?_, by decide, by decide, by decide⟩
  unfold get_filename
  rw [h1]
  simp only [h2, h3]
  by_cases hl : (pyStem f).length > 0
  · simp [hl]
  · simp [hl, string_eq_empty_of_not_pos _ hl]

/-- Witness for C9's general conjunct at the concrete status line
`file /music/artist/01 - Song.flac`. -/
theorem C9_get_filename_witness :
    get_filename true "file /music/artist/01 - Song.flac" =
      Except.ok (pyStem "/music/artist/01 - Song.flac") :=
  C9_get_filename.1 "file /music/artist/01 - Song.flac"
    [("values", TopVal.sec
        [("status", PyVal.str ""), ("file", PyVal.str "/music/artist/01 - Song.flac"),
         ("duration", PyVal.int 0), ("position", PyVal.int 0)]),
     ("tag", TopVal.sec defaultTag), ("set", TopVal.sec defaultSet)]
    [("status", PyVal.str ""), ("file", PyVal.str "/music/artist/01 - Song.flac"),
     ("duration", PyVal.int 0), ("position", PyVal.int 0)]
    "/music/artist/01 - Song.flac" (by decide) (by decide) (by decide)

/-- C10: the boolean rule matches by prefix and its constructor cannot
fail, so every string starting with `True`, `true`, `False` or `false` is
cast to the boolean `pyLower s == "true"`: it yields `True` exactly when
the whole lowercased string is `true`, and `False` otherwise — in
particular `trueness` and `falsehood` become the boolean `False`, not
text. -/
theorem C10_bool_literal_cast :
    (∀ (s : String) (t : List Char),
      s.data = "True".data ++ t ∨ s.data = "true".data ++ t ∨
        s.data = "False".data ++ t ∨ s.data = "false".data ++ t →
      typecast s = PyVal.bool (pyLower s == "true")) ∧
    typecast "trueness" = PyVal.bool false ∧
    typecast "falsehood" = PyVal.bool false ∧
    typecast "true" = PyVal.bool true ∧
    typecast "True" = PyVal.bool true := by
  refine ⟨fun s t h => ?_, by decide, by decide, by decide, by decide⟩
  have hb : matchBoolPat s = true := by
    rcases h with h | h | h | h <;>
      simp [matchBoolPat, h, isPrefixOf_append]
  rcases h with h | h | h | h
  · exact typecast_of_boolpm s 'T' ("rue".data ++ t) (by rw [h]; rfl)
      (by decide) (by decide) hb
  · exact typecast_of_boolpm s 't' ("rue".data ++ t) (by rw [h]; rfl)
      (by decide) (by decide) hb
  · exact typecast_of_boolpm s 'F' ("alse".data ++ t) (by rw [h]; rfl)
      (by decide) (by decide) hb
  · exact typecast_of_boolpm s 'f' ("alse".data ++ t) (by rw [h]; rfl)
      (by decide) (by decide) hb

/-- Witness for C10's general conjunct at the concrete string
`trueness`. -/
theorem C10_bool_literal_cast_witness :
    typecast "trueness" = PyVal.bool (pyLower "trueness" == "true") :=
  C10_bool_literal_cast.1 "trueness" "ness".data (Or.inr (Or.inl rfl))

end CmusPy
